import Mathlib

/-!
Verification of the chess-bot repository (src/my_bot.py) against its
natural-language specification.

The development shallowly embeds the parts of `my_bot.py` that the claims
are about:

* the square/move data model (python-chess `Move` values as consumed by the
  bot: an origin square, a destination square, an optional promotion piece);
* the UI locator's geometric fallback (`find_square_by_position`,
  `get_square_center_coordinates`);
* the three execution strategies' externally visible transmissions
  (`execute_move_with_drag_drop`, the `js_code` script of
  `execute_move_with_javascript`, the text typed by
  `execute_move_with_keyboard`);
* the strategy chain `execute_move` with its move-log append, and
  `save_move_log`;
* the engine advisor `calculate_best_move`;
* the game loop `play_game_loop`, as a step function over an explicit loop
  state, parameterised by the behaviour of the engine and of the execution
  strategies at each iteration.

Python floats that only ever hold element geometry are modelled as exact
rationals; Python `int()` truncation is modelled explicitly (`pyInt`).
The chess library (python-chess) and the Stockfish engine are external
dependencies of the repository, not part of its source: they enter the
model as an abstract `BoardModel` (initial position, `push`, `is_game_over`,
`result`) and an abstract per-call engine reply, exactly at the interface
the source uses them.
-/

namespace ChessBot

/-! ## Squares and moves -/

/-- A chess square as the bot handles it: a file index 0–7 (a–h) and a rank
index 0–7 (ranks 1–8), the indices computed by `find_square_by_position`
from the square's algebraic name. -/
structure Square where
  file : Nat
  rank : Nat
deriving DecidableEq, Repr

/-- `chess.square_name`: the algebraic name of a square, a file letter
followed by a rank digit (e.g. "e4"). -/
def squareName (s : Square) : String :=
  String.mk [Char.ofNat (97 + s.file), Char.ofNat (49 + s.rank)]

/-- A python-chess `Move` as the bot consumes it: origin square, destination
square, optional promotion piece type (2=n, 3=b, 4=r, 5=q). Immutable
value. -/
structure Move where
  fromSq : Square
  toSq : Square
  promotion : Option Nat
deriving DecidableEq, Repr

/-- The promotion-piece suffix of a UCI move string (python-chess piece
symbols for piece types 2–5). -/
def promotionSymbol : Option Nat → String
  | some 2 => "n"
  | some 3 => "b"
  | some 4 => "r"
  | some 5 => "q"
  | _ => ""

/-- `str(move)` in python-chess: the UCI string, origin name ++ destination
name ++ promotion symbol. -/
def uci (m : Move) : String :=
  squareName m.fromSq ++ squareName m.toSq ++ promotionSymbol m.promotion

/-! ## UI locator: geometric fallback -/

/-- The bounding box of the board root element (`board_element.rect`), as
exact rationals. -/
structure BoardRect where
  width : ℚ
  height : ℚ
deriving DecidableEq, Repr

/-- The `square_info` dict built by `find_square_by_position`: the board
element (here: its rect), the file and rank indices, and the square name. -/
structure SquareInfo where
  rect : BoardRect
  file_index : Nat
  rank_index : Nat
  square : String
deriving DecidableEq, Repr

/-- `find_square_by_position` (lines 334–368): parse the square name into
`file_index = ord(square[0]) - ord('a')` and
`rank_index = int(square[1]) - 1`, and package them with the board element.
Names produced by `squareName` always have exactly two characters; the
fallback branch for shorter strings is unreachable for them. -/
def find_square_by_position (rect : BoardRect) (square : String) : SquareInfo :=
  match square.toList with
  | file_char :: rank_char :: _ =>
      ⟨rect, file_char.toNat - 97, rank_char.toNat - 49, square⟩
  | _ => ⟨rect, 0, 0, square⟩

/-- Python `int()` applied to a rational: truncation toward zero. -/
def pyInt (q : ℚ) : ℤ :=
  if 0 ≤ q then ⌊q⌋ else -⌊-q⌋

/-- The exact offsets computed by `get_square_center_coordinates`
(lines 370–405) before the `int()` conversion:
`square_width = board_width / 8`, `square_height = board_height / 8`,
`x_offset = file_index * square_width + square_width / 2`,
`y_offset = (7 - rank_index) * square_height + square_height / 2`. -/
def get_square_center_offsets (W H : ℚ) (file_index rank_index : Nat) : ℚ × ℚ :=
  let square_width := W / 8
  let square_height := H / 8
  ((file_index : ℚ) * square_width + square_width / 2,
   (7 - (rank_index : ℚ)) * square_height + square_height / 2)

/-- `get_square_center_coordinates`: the exact offsets truncated by
`int(...)`. -/
def get_square_center_coordinates (info : SquareInfo) : ℤ × ℤ :=
  let xy := get_square_center_offsets info.rect.width info.rect.height
      info.file_index info.rank_index
  (pyInt xy.1, pyInt xy.2)

/-! ## Execution strategies: the data each one transmits to the UI

Claim C10 is about what each strategy sends to the page for a given move.
For each of the three strategies we embed the move-dependent payload it
hands to the browser, exactly as the source computes it. -/

/-- The pointer sequence performed by `execute_move_with_drag_drop`
(lines 407–460): move-to the origin square's center offset within the board
element, click-and-hold, move-to the destination square's center offset,
release. Both offsets are computed by `find_square_by_position` /
`get_square_center_coordinates` from the squares' algebraic names. -/
structure DragSequence where
  fromCoord : ℤ × ℤ
  toCoord : ℤ × ℤ
deriving DecidableEq, Repr

/-- The coordinates transmitted by `execute_move_with_drag_drop` for a move
on a board of the given bounding box: the centers of
`chess.square_name(move.from_square)` and
`chess.square_name(move.to_square)`. -/
def execute_move_with_drag_drop_sequence (rect : BoardRect) (m : Move) : DragSequence :=
  let from_square_info := find_square_by_position rect (squareName m.fromSq)
  let to_square_info := find_square_by_position rect (squareName m.toSq)
  ⟨get_square_center_coordinates from_square_info,
   get_square_center_coordinates to_square_info⟩

/-- The `js_code` script injected by `execute_move_with_javascript`
(lines 466–556), after f-string rendering: the only move-dependent data
interpolated into the fixed template are the origin and destination square
names (source lines 478–479). Literal braces of the script are written as
escapes, and its quote characters as hexadecimal escapes, to keep this file
plain; the text is otherwise the rendered script verbatim. -/
def js_code (m : Move) : String :=
  String.intercalate "\n"
    [ ""
    , "            var fromSquare = \x27" ++ squareName m.fromSq ++ "\x27;"
    , "            var toSquare = \x27" ++ squareName m.toSq ++ "\x27;"
    , "            "
    , "            // Try to find Chess.com board component"
    , "            var board = document.querySelector(\x27wc-chess-board\x27);"
    , "            if (board) \x7b"
    , "                try \x7b"
    , "                    // Try to access board\x27s internal methods"
    , "                    if (board.game && board.game.move) \x7b"
    , "                        var result = board.game.move(\x7bfrom: fromSquare, to: toSquare\x7d);"
    , "                        if (result) \x7b"
    , "                            console.log(\x27Move executed via game.move()\x27);"
    , "                            return true;"
    , "                        \x7d"
    , "                    \x7d"
    , "                    "
    , "                    // Try alternative method"
    , "                    if (board.move) \x7b"
    , "                        var result = board.move(fromSquare, toSquare);"
    , "                        if (result) \x7b"
    , "                            console.log(\x27Move executed via board.move()\x27);"
    , "                            return true;"
    , "                        \x7d"
    , "                    \x7d"
    , "                    "
    , "                    // Try to trigger mouse events on squares"
    , "                    var squares = board.querySelectorAll(\x27[class*=\x22square\x22]\x27);"
    , "                    var fromEl = null, toEl = null;"
    , "                    "
    , "                    squares.forEach(function(square) \x7b"
    , "                        var classes = square.className;"
    , "                        if (classes.includes(\x27square-\x27 + fromSquare)) \x7b"
    , "                            fromEl = square;"
    , "                        \x7d"
    , "                        if (classes.includes(\x27square-\x27 + toSquare)) \x7b"
    , "                            toEl = square;"
    , "                        \x7d"
    , "                    \x7d);"
    , "                    "
    , "                    if (fromEl && toEl) \x7b"
    , "                        // Simulate mouse events"
    , "                        var mouseDown = new MouseEvent(\x27mousedown\x27, \x7bbubbles: true\x7d);"
    , "                        var mouseUp = new MouseEvent(\x27mouseup\x27, \x7bbubbles: true\x7d);"
    , "                        var click = new MouseEvent(\x27click\x27, \x7bbubbles: true\x7d);"
    , "                        "
    , "                        fromEl.dispatchEvent(mouseDown);"
    , "                        fromEl.dispatchEvent(click);"
    , "                        "
    , "                        setTimeout(function() \x7b"
    , "                            toEl.dispatchEvent(mouseUp);"
    , "                            toEl.dispatchEvent(click);"
    , "                        \x7d, 100);"
    , "                        "
    , "                        console.log(\x27Move executed via mouse events\x27);"
    , "                        return true;"
    , "                    \x7d"
    , "                    "
    , "                \x7d catch(e) \x7b"
    , "                    console.log(\x27JavaScript move error:\x27, e);"
    , "                \x7d"
    , "            \x7d"
    , "            "
    , "            return false;"
    , "            " ]

/-- The text typed by `execute_move_with_keyboard` (lines 558–595): the
concatenation of the origin and destination square names (source variable
bound at line 575), followed by an ENTER keystroke (not part of the text). -/
def keyboard_move_text (m : Move) : String :=
  squareName m.fromSq ++ squareName m.toSq

/-! ## The strategy chain `execute_move` -/

/-- The three execution strategies, in the fixed priority order of the
`methods` list of `execute_move` (lines 637–641). -/
inductive Method
  | drag_drop
  | javascript
  | keyboard
deriving DecidableEq, Repr

/-- The `method_name` string paired with each strategy in the `methods`
list. -/
def methodName : Method → String
  | Method.drag_drop => "drag_drop"
  | Method.javascript => "javascript"
  | Method.keyboard => "keyboard"

/-- The `methods` list of `execute_move`: drag-drop, then JavaScript
injection, then keyboard, tried in this order. -/
def methods : List Method :=
  [Method.drag_drop, Method.javascript, Method.keyboard]

/-- What one strategy invocation reports back to `execute_move`: `True`
(success), `False` (failure), or a raised exception — the latter is caught
by the per-method `try` and treated like failure (the chain continues). -/
inductive MethodOutcome
  | success
  | failure
  | exn
deriving DecidableEq, Repr

/-- One record of the bot's `move_log` (the `move_entry` dict of
`execute_move`, lines 649–655): timestamp, `str(move)`, origin and
destination square names, and the winning method's name. -/
structure MoveLogEntry where
  timestamp : Nat
  move : String
  fromName : String
  toName : String
  method : String
deriving DecidableEq, Repr

/-- The `move_entry` dict appended to `self.move_log` on a successful
strategy. -/
def move_entry (now : Nat) (m : Move) (method_name : String) : MoveLogEntry :=
  ⟨now, uci m, squareName m.fromSq, squareName m.toSq, method_name⟩

/-- The observable result of one `execute_move` call: the returned boolean,
the list of strategies that were invoked (in invocation order), and the
records appended to `self.move_log`. -/
structure ExecResult where
  success : Bool
  invoked : List Method
  appended : List MoveLogEntry
deriving DecidableEq, Repr

/-- The `for method_name, method_func in methods:` loop of `execute_move`
(lines 643–662): invoke each strategy in order; on the first reported
success, append a `move_entry` (when `self.log_moves` is set) and return
`True`; on failure or a caught exception, continue with the next strategy;
return `False` when the list is exhausted. -/
def try_methods (results : Method → MethodOutcome) (log_moves : Bool)
    (now : Nat) (m : Move) : List Method → ExecResult
  | [] => ⟨false, [], []⟩
  | meth :: rest =>
    match results meth with
    | MethodOutcome.success =>
        ⟨true, [meth], if log_moves then [move_entry now m (methodName meth)] else []⟩
    | _ =>
        let r := try_methods results log_moves now m rest
        ⟨r.success, meth :: r.invoked, r.appended⟩

/-- `execute_move` (lines 628–669): run the strategy chain over the
`methods` list. `results` gives what each strategy would report if invoked
on this call; `now` is the timestamp used for the log record. -/
def execute_move (results : Method → MethodOutcome) (log_moves : Bool)
    (now : Nat) (m : Move) : ExecResult :=
  try_methods results log_moves now m methods

/-- `save_move_log` (lines 671–680): write the accumulated log to a file —
modelled as the persisted contents — but only when the log is non-empty;
otherwise no file is written. -/
def save_move_log (log : List MoveLogEntry) : Option (List MoveLogEntry) :=
  if log = [] then none else some log

/-! ## Engine advisor -/

/-- The behaviour of one `self.engine.play(board, limit)` call, as observed
by `calculate_best_move`: the engine returns a move, the engine returns no
move (`result.move` falsy), or the process communication raises (caught by
the surrounding `except`). -/
inductive EngineReply
  | move (m : Move)
  | noMove
  | commFail
deriving DecidableEq, Repr

/-- The board-model interface the loop consumes from the external
python-chess library: the starting position, `push`, `is_game_over`, and
`result`. The library is a dependency of the repository, not part of its
source; the loop is verified for every implementation of this interface. -/
structure BoardModel (Pos : Type) where
  init : Pos
  push : Pos → Move → Pos
  is_game_over : Pos → Bool
  result : Pos → String

/-- `calculate_best_move` (lines 608–626): return `None` when the board is
already game over (without consulting the engine); otherwise ask the engine
and return its move, or `None` when the engine reports no move, or `None`
when the communication raises (caught by the `except` at line 624). The
caller receives a bare `Option Move` in every case. -/
def calculate_best_move {Pos : Type} (M : BoardModel Pos) (board : Pos)
    (reply : EngineReply) : Option Move :=
  if M.is_game_over board then none
  else
    match reply with
    | EngineReply.move m => some m
    | EngineReply.noMove => none
    | EngineReply.commFail => none

/-- Number of `self.engine.play` calls made by one `calculate_best_move`
call: zero when the game-over guard fires, one otherwise (also when the
call raises). -/
def engine_play_count {Pos : Type} (M : BoardModel Pos) (board : Pos) : Nat :=
  if M.is_game_over board then 0 else 1

/-! ## The game loop `play_game_loop` -/

/-- How a `play_game_loop` run can end: still in the `while` loop, broke out
because the board reports game over, broke out because the
consecutive-failure threshold was reached, or left the loop because the
move ceiling was reached. -/
inductive LoopStatus
  | running
  | gameOver
  | aborted
  | moveLimit
deriving DecidableEq, Repr

/-- The environment's behaviour during one loop iteration: the engine's
reply if consulted, what each execution strategy would report if invoked,
and the current timestamp. -/
structure EnvStep where
  engineReply : EngineReply
  execResults : Method → MethodOutcome
  now : Nat

/-- The state of one `play_game_loop` run: the loop variables
`moves_played`, `consecutive_failures` and `current_board`, the bot's
`move_log`, and three observers — the number of `engine.play` calls made,
the list of successfully applied moves in order, and the loop status with
the game-over classification (`current_board.result()`) when it fired. -/
structure LoopState (Pos : Type) where
  moves_played : Nat
  consecutive_failures : Nat
  board : Pos
  move_log : List MoveLogEntry
  engine_calls : Nat
  applied : List Move
  status : LoopStatus
  final_result : Option String
deriving DecidableEq, Repr

/-- The `max_failures` threshold set at line 686. -/
def max_failures : Nat := 3

/-- The state at entry of `play_game_loop` (lines 684–687):
`moves_played = 0`, `consecutive_failures = 0`,
`current_board = chess.Board()`, and an empty log. -/
def init_loop_state {Pos : Type} (M : BoardModel Pos) : LoopState Pos :=
  ⟨0, 0, M.init, [], 0, [], LoopStatus.running, none⟩

/-- One iteration of the `while moves_played < max_moves:` loop of
`play_game_loop` (lines 691–761), for a given environment behaviour:

* if the run has already ended, nothing changes (the loop is not re-entered);
* if the `while` condition fails, the run ends with the move ceiling;
* if `current_board.is_game_over()`, classify `current_board.result()` and
  break;
* otherwise set `consecutive_failures = 0` (line 707 — executed at the top
  of every iteration), call `calculate_best_move`;
* on `None`, sleep and `continue` (no counter is touched);
* on a move, call `execute_move`: on reported success increment
  `moves_played`, `push` the move onto `current_board` (the log record was
  appended inside `execute_move`); on reported failure increment
  `consecutive_failures` and break when it reaches `max_failures`, else
  `continue`. -/
def play_game_loop_step {Pos : Type} (M : BoardModel Pos) (log_moves : Bool)
    (max_moves : Nat) (e : EnvStep) (s : LoopState Pos) : LoopState Pos :=
  if s.status ≠ LoopStatus.running then s
  else if s.moves_played < max_moves then
    if M.is_game_over s.board then
      { s with status := LoopStatus.gameOver,
               final_result := some (M.result s.board) }
    else
      let s1 := { s with consecutive_failures := 0,
                         engine_calls := s.engine_calls + engine_play_count M s.board }
      match calculate_best_move M s1.board e.engineReply with
      | none => s1
      | some best_move =>
        let r := execute_move e.execResults log_moves e.now best_move
        if r.success then
          { s1 with moves_played := s1.moves_played + 1,
                    board := M.push s1.board best_move,
                    applied := s1.applied ++ [best_move],
                    move_log := s1.move_log ++ r.appended }
        else
          let cf := s1.consecutive_failures + 1
          if max_failures ≤ cf then
            { s1 with consecutive_failures := cf,
                      status := LoopStatus.aborted,
                      move_log := s1.move_log ++ r.appended }
          else
            { s1 with consecutive_failures := cf,
                      move_log := s1.move_log ++ r.appended }
  else { s with status := LoopStatus.moveLimit }

/-- The state of a `play_game_loop` run after `n` loop iterations, under the
iteration-indexed environment behaviour `env`. -/
def play_game_loop_run {Pos : Type} (M : BoardModel Pos) (log_moves : Bool)
    (max_moves : Nat) (env : Nat → EnvStep) : Nat → LoopState Pos
  | 0 => init_loop_state M
  | n + 1 => play_game_loop_step M log_moves max_moves (env n)
      (play_game_loop_run M log_moves max_moves env n)

/-! ## Legality of positions

Chess legality lives in the external python-chess library and the engine;
the model takes an arbitrary legal-move relation `L` and calls a position
legal when it is reachable from the starting position by `L`-legal pushes —
the standard reading of "legal per chess rules" for positions. -/

/-- A position is legal when it is the starting position or arises from a
legal position by pushing a move that is legal for it. -/
inductive LegalPos {Pos : Type} (M : BoardModel Pos) (L : Pos → Move → Prop) : Pos → Prop
  | start : LegalPos M L M.init
  | step (p : Pos) (m : Move) : LegalPos M L p → L p m → LegalPos M L (M.push p m)

/-! ## Concrete instances used by witnesses and counterexamples -/

/-- The move e2e4. -/
def e2e4 : Move := ⟨⟨4, 1⟩, ⟨4, 3⟩, none⟩

/-- A board model with no observable position, never game over: the minimal
instantiation of the interface. -/
def trivialModel : BoardModel Unit :=
  ⟨(), fun _ _ => (), fun _ => false, fun _ => "*"⟩

/-- A board model that records the pushed move history, never game over. -/
def histModel : BoardModel (List Move) :=
  ⟨[], fun p m => p ++ [m], fun _ => false, fun _ => "*"⟩

/-- A board model whose every position reports game over with result 1-0. -/
def gameOverModel : BoardModel Unit :=
  ⟨(), fun _ _ => (), fun _ => true, fun _ => "1-0"⟩

/-- An environment in which the engine always proposes e2e4 and every
execution strategy always reports failure — the always-failing execution
stub of the spec's test scenario. -/
def alwaysFailEnv : Nat → EnvStep :=
  fun k => ⟨EngineReply.move e2e4, fun _ => MethodOutcome.failure, k⟩

/-- An environment in which the engine always proposes e2e4 and the first
(drag-drop) strategy always reports success. -/
def allSuccessEnv : Nat → EnvStep :=
  fun k => ⟨EngineReply.move e2e4, fun _ => MethodOutcome.success, k⟩

/-- The state an always-failing run is stuck in after `n` iterations. -/
def alwaysFailState {Pos : Type} (M : BoardModel Pos) (n : Nat) : LoopState Pos :=
  { init_loop_state M with
      consecutive_failures := if n = 0 then 0 else 1,
      engine_calls := n }

end ChessBot

namespace ChessBot

/-! ## Theorems -/

/-- Sanity check of the geometry on a concrete board size. -/
example : get_square_center_offsets 160 160 0 0 = (10, 150) := by
  norm_num [get_square_center_offsets]

/-- Claim C7: For every board of width W and height H, the geometric fallback
computes the center of square (file=0, rank=0) at `(W/16, H*15/16)` and the
center of square (file=7, rank=7) at `(W*15/16, H/16)`, as exact arithmetic
on the formula `x = fileIndex * cellWidth + cellWidth/2`,
`y = (7 - rankIndex) * cellHeight + cellHeight/2`; the returned pixel pair
is the truncation of exactly these values. -/
theorem geometric_fallback_corner_centers (W H : ℚ) :
    get_square_center_offsets W H 0 0 = (W / 16, H * 15 / 16)
    ∧ get_square_center_offsets W H 7 7 = (W * 15 / 16, H / 16)
    ∧ get_square_center_coordinates ⟨⟨W, H⟩, 0, 0, "a1"⟩
        = (pyInt (W / 16), pyInt (H * 15 / 16))
    ∧ get_square_center_coordinates ⟨⟨W, H⟩, 7, 7, "h8"⟩
        = (pyInt (W * 15 / 16), pyInt (H / 16)) := by
  have h00 : get_square_center_offsets W H 0 0 = (W / 16, H * 15 / 16) := by
    simp only [get_square_center_offsets, Nat.cast_zero, Prod.mk.injEq]
    constructor <;> ring
  have h77 : get_square_center_offsets W H 7 7 = (W * 15 / 16, H / 16) := by
    simp only [get_square_center_offsets, Nat.cast_ofNat, Prod.mk.injEq]
    constructor <;> ring
  refine ⟨h00, h77, ?_, ?_⟩
  · simp [get_square_center_coordinates, h00]
  · simp [get_square_center_coordinates, h77]

/-- Every strategy's `method_name` is one of the three fixed strings. -/
lemma methodName_cases (meth : Method) :
    methodName meth = "drag_drop" ∨ methodName meth = "javascript"
      ∨ methodName meth = "keyboard" := by
  cases meth <;> simp [methodName]

/-- The strategies invoked by the chain form an initial segment of the
method list. -/
lemma try_methods_invoked_take (res : Method → MethodOutcome) (lm : Bool)
    (now : Nat) (m : Move) :
    ∀ ms : List Method, ∃ k, (try_methods res lm now m ms).invoked = ms.take k := by
  intro ms
  induction ms with
  | nil => exact ⟨0, rfl⟩
  | cons meth rest ih =>
    obtain ⟨k, hk⟩ := ih
    cases h : res meth with
    | success => exact ⟨1, by simp [try_methods, h]⟩
    | failure => exact ⟨k + 1, by simp [try_methods, h, hk]⟩
    | exn => exact ⟨k + 1, by simp [try_methods, h, hk]⟩

/-- The number of invoked strategies that report success is 1 when the chain
reports success and 0 when it reports failure. -/
lemma try_methods_success_countP (res : Method → MethodOutcome) (lm : Bool)
    (now : Nat) (m : Move) :
    ∀ ms : List Method,
      (try_methods res lm now m ms).invoked.countP
          (fun meth => decide (res meth = MethodOutcome.success))
        = if (try_methods res lm now m ms).success then 1 else 0 := by
  intro ms
  induction ms with
  | nil => rfl
  | cons meth rest ih =>
    cases h : res meth with
    | success => simp [try_methods, h, List.countP_cons]
    | failure => simp [try_methods, h, List.countP_cons, ih]
    | exn => simp [try_methods, h, List.countP_cons, ih]

/-- All invoked strategies except possibly the last one reported
non-success: the chain never goes past a success. -/
lemma try_methods_dropLast_countP (res : Method → MethodOutcome) (lm : Bool)
    (now : Nat) (m : Move) :
    ∀ ms : List Method,
      (try_methods res lm now m ms).invoked.dropLast.countP
          (fun meth => decide (res meth = MethodOutcome.success)) = 0 := by
  intro ms
  induction ms with
  | nil => rfl
  | cons meth rest ih =>
    cases h : res meth with
    | success => simp [try_methods, h]
    | failure =>
      rcases hi : (try_methods res lm now m rest).invoked with _ | ⟨x, xs⟩
      · simp [try_methods, h, hi]
      · have := ih
        rw [hi] at this
        simp [try_methods, h, hi, List.dropLast, List.countP_cons, this]
    | exn =>
      rcases hi : (try_methods res lm now m rest).invoked with _ | ⟨x, xs⟩
      · simp [try_methods, h, hi]
      · have := ih
        rw [hi] at this
        simp [try_methods, h, hi, List.dropLast, List.countP_cons, this]

/-- What the chain appends to the move log: on reported success exactly one
`move_entry` for the winning method (when logging is enabled; nothing when
it is disabled), and nothing on reported failure. -/
lemma try_methods_appended (res : Method → MethodOutcome) (lm : Bool)
    (now : Nat) (m : Move) :
    ∀ ms : List Method,
      ((try_methods res lm now m ms).success = true
        ∧ ∃ meth, res meth = MethodOutcome.success
            ∧ (try_methods res lm now m ms).appended
                = if lm then [move_entry now m (methodName meth)] else [])
      ∨ ((try_methods res lm now m ms).success = false
        ∧ (try_methods res lm now m ms).appended = []) := by
  intro ms
  induction ms with
  | nil => exact Or.inr ⟨rfl, rfl⟩
  | cons meth rest ih =>
    cases h : res meth with
    | success => exact Or.inl ⟨by simp [try_methods, h], meth, h, by simp [try_methods, h]⟩
    | failure =>
      rcases ih with ⟨hs, meth2, h2, ha⟩ | ⟨hs, ha⟩
      · exact Or.inl ⟨by simp [try_methods, h, hs], meth2, h2, by simp [try_methods, h, ha]⟩
      · exact Or.inr ⟨by simp [try_methods, h, hs], by simp [try_methods, h, ha]⟩
    | exn =>
      rcases ih with ⟨hs, meth2, h2, ha⟩ | ⟨hs, ha⟩
      · exact Or.inl ⟨by simp [try_methods, h, hs], meth2, h2, by simp [try_methods, h, ha]⟩
      · exact Or.inr ⟨by simp [try_methods, h, hs], by simp [try_methods, h, ha]⟩

/-- Claim C4: For every move, `execute_move` tries its strategies strictly in the
fixed priority order drag-drop, then JavaScript injection, then keyboard
(the invoked strategies are an initial segment of the `methods` list); every
invoked strategy except possibly the last reported non-success, so no
strategy is ever invoked after a higher-priority one reports success; and
the number of strategies whose action reports success is at most one —
exactly one when the call returns `True`, zero when it returns `False`. -/
theorem execute_move_strategy_chain (res : Method → MethodOutcome) (lm : Bool)
    (now : Nat) (m : Move) :
    (∃ k, (execute_move res lm now m).invoked = methods.take k)
    ∧ (execute_move res lm now m).invoked.dropLast.countP
        (fun meth => decide (res meth = MethodOutcome.success)) = 0
    ∧ (execute_move res lm now m).invoked.countP
        (fun meth => decide (res meth = MethodOutcome.success))
        = (if (execute_move res lm now m).success then 1 else 0) :=
  ⟨try_methods_invoked_take res lm now m methods,
   try_methods_dropLast_countP res lm now m methods,
   try_methods_success_countP res lm now m methods⟩

/-- Claim C10: No execution strategy transmits the promotion piece of a move to
the UI: the drag-drop pointer sequence, the injected JavaScript, and the
typed keyboard text are unchanged when the move's promotion field is
replaced by any other value — each depends only on the origin and
destination squares. -/
theorem strategies_drop_promotion (rect : BoardRect) (m : Move) (p : Option Nat) :
    execute_move_with_drag_drop_sequence rect { m with promotion := p }
        = execute_move_with_drag_drop_sequence rect m
    ∧ js_code { m with promotion := p } = js_code m
    ∧ keyboard_move_text { m with promotion := p } = keyboard_move_text m :=
  ⟨rfl, rfl, rfl⟩

/-- Claim C8, counterexample: the claim that a communication failure is surfaced to
the caller as a condition distinct from the no-move case is false — at the
starting position of the minimal board model, `calculate_best_move` returns
the very same value (`None`) for an engine that reports no move and for an
engine whose process communication fails, so the caller cannot tell the two
apart. -/
theorem calculate_best_move_failures_indistinguishable :
    calculate_best_move trivialModel () EngineReply.commFail
        = calculate_best_move trivialModel () EngineReply.noMove
    ∧ calculate_best_move trivialModel () EngineReply.commFail = none := ⟨rfl, rfl⟩

/-- Claim C8, amended: `calculate_best_move` returns `None` both when the engine
reports no move and when the process communication fails, and these two
cases produce the identical caller-visible result on every board — the
distinction exists only in the log output, not in what is surfaced to the
caller. -/
theorem calculate_best_move_failures_return_none {Pos : Type}
    (M : BoardModel Pos) (b : Pos) :
    calculate_best_move M b EngineReply.noMove = none
    ∧ calculate_best_move M b EngineReply.commFail = none
    ∧ calculate_best_move M b EngineReply.noMove
        = calculate_best_move M b EngineReply.commFail := by
  unfold calculate_best_move
  split <;> simp

/-- Inverting `calculate_best_move`: a move comes back only when the engine
actually replied with that move (and the board was not game over). -/
lemma calculate_best_move_eq_some {Pos : Type} (M : BoardModel Pos) (b : Pos)
    (r : EngineReply) (m : Move) :
    calculate_best_move M b r = some m → r = EngineReply.move m := by
  unfold calculate_best_move
  split
  · simp
  · cases r <;> simp

/-- Corollary of `try_methods_appended` at the `methods` list: what one
`execute_move` call appends to the move log. -/
lemma execute_move_appended (res : Method → MethodOutcome) (lm : Bool)
    (now : Nat) (m : Move) :
    ((execute_move res lm now m).success = true
      ∧ ∃ meth, res meth = MethodOutcome.success
          ∧ (execute_move res lm now m).appended
              = if lm then [move_entry now m (methodName meth)] else [])
    ∨ ((execute_move res lm now m).success = false
      ∧ (execute_move res lm now m).appended = []) :=
  try_methods_appended res lm now m methods

/-- Case analysis of one loop iteration, focused on the board: either the
board (and the applied-move list) is untouched, or the iteration pushed
exactly the move `calculate_best_move` returned for the current board and
that move's execution reported success. -/
lemma play_game_loop_step_board_cases {Pos : Type} (M : BoardModel Pos) (lm : Bool)
    (mm : Nat) (e : EnvStep) (s : LoopState Pos) :
    ((play_game_loop_step M lm mm e s).board = s.board
      ∧ (play_game_loop_step M lm mm e s).applied = s.applied)
    ∨ ∃ m, calculate_best_move M s.board e.engineReply = some m
        ∧ (execute_move e.execResults lm e.now m).success = true
        ∧ (play_game_loop_step M lm mm e s).board = M.push s.board m
        ∧ (play_game_loop_step M lm mm e s).applied = s.applied ++ [m] := by
  unfold play_game_loop_step
  split
  · exact Or.inl ⟨rfl, rfl⟩
  split
  · split
    · exact Or.inl ⟨rfl, rfl⟩
    · dsimp only
      rcases hc : calculate_best_move M s.board e.engineReply with _ | best_move
      · exact Or.inl ⟨rfl, rfl⟩
      · dsimp only
        split
        · rename_i hs
          exact Or.inr ⟨best_move, rfl, hs, rfl, rfl⟩
        · split
          · exact Or.inl ⟨rfl, rfl⟩
          · exact Or.inl ⟨rfl, rfl⟩
  · exact Or.inl ⟨rfl, rfl⟩

/-- Case analysis of one loop iteration, focused on the move log: either the
log (and the applied-move list) is untouched, or the iteration applied the
calculated move and appended exactly one `move_entry` for the winning
method (when logging is enabled; nothing when it is disabled). -/
lemma play_game_loop_step_log_cases {Pos : Type} (M : BoardModel Pos) (lm : Bool)
    (mm : Nat) (e : EnvStep) (s : LoopState Pos) :
    ((play_game_loop_step M lm mm e s).move_log = s.move_log
      ∧ (play_game_loop_step M lm mm e s).applied = s.applied)
    ∨ ∃ m meth, calculate_best_move M s.board e.engineReply = some m
        ∧ (play_game_loop_step M lm mm e s).applied = s.applied ++ [m]
        ∧ (play_game_loop_step M lm mm e s).move_log
            = s.move_log ++ (if lm then [move_entry e.now m (methodName meth)] else []) := by
  unfold play_game_loop_step
  split
  · exact Or.inl ⟨rfl, rfl⟩
  split
  · split
    · exact Or.inl ⟨rfl, rfl⟩
    · dsimp only
      rcases hc : calculate_best_move M s.board e.engineReply with _ | best_move
      · exact Or.inl ⟨rfl, rfl⟩
      · dsimp only
        rcases execute_move_appended e.execResults lm e.now best_move with
          ⟨hs2, meth, hm, ha⟩ | ⟨hs2, ha⟩
        · split
          · exact Or.inr ⟨best_move, meth, rfl, rfl, by rw [ha]⟩
          · rename_i hs
            exact absurd hs2 hs
        · split
          · rename_i hs
            rw [hs2] at hs
            simp at hs
          · split
            · exact Or.inl ⟨by rw [ha, List.append_nil], rfl⟩
            · exact Or.inl ⟨by rw [ha, List.append_nil], rfl⟩
  · exact Or.inl ⟨rfl, rfl⟩

/-- Under the always-failing execution stub the run is stuck: every
iteration first resets the consecutive-failure counter (line 707 runs at the
top of every iteration, not only after a success), then increments it to 1,
finds 1 < 3 and retries — the state after `n` iterations is always
`alwaysFailState`. -/
lemma play_game_loop_run_alwaysFail {Pos : Type} (M : BoardModel Pos) (lm : Bool)
    (mm : Nat) (h0 : M.is_game_over M.init = false) (hmm : 0 < mm) :
    ∀ n, play_game_loop_run M lm mm alwaysFailEnv n = alwaysFailState M n := by
  intro n
  induction n with
  | zero => rfl
  | succ k ih =>
    rw [play_game_loop_run, ih]
    unfold play_game_loop_step alwaysFailState init_loop_state
    simp [h0, hmm, calculate_best_move, engine_play_count, execute_move, try_methods,
      alwaysFailEnv, methods, max_failures]

/-- Claim C1 (refuted — the code diverges from it): with an execution stub
that always reports failure (and a board that is not game over at the
start), `play_game_loop` never transitions to `Aborted` — not after 3
consecutive failures, not ever — because line 707 resets
`consecutive_failures` to 0 at the top of every iteration, so the counter
never exceeds 1 and never reaches the threshold `max_failures = 3`. -/
theorem play_game_loop_never_aborts (Pos : Type) (M : BoardModel Pos) (lm : Bool)
    (mm : Nat) (h0 : M.is_game_over M.init = false) (hmm : 0 < mm) (n : Nat) :
    (play_game_loop_run M lm mm alwaysFailEnv n).status ≠ LoopStatus.aborted
    ∧ (play_game_loop_run M lm mm alwaysFailEnv n).consecutive_failures < max_failures := by
  rw [play_game_loop_run_alwaysFail M lm mm h0 hmm n]
  constructor
  · simp [alwaysFailState, init_loop_state]
  · unfold alwaysFailState init_loop_state max_failures
    dsimp only
    split <;> norm_num

/-- Witness for `play_game_loop_never_aborts` at the minimal board model,
`max_moves = 100` and 5 iterations. -/
theorem play_game_loop_never_aborts_witness :
    trivialModel.is_game_over trivialModel.init = false
    ∧ 0 < 100
    ∧ (play_game_loop_run trivialModel true 100 alwaysFailEnv 5).status ≠ LoopStatus.aborted :=
  ⟨rfl, by norm_num,
   (play_game_loop_never_aborts Unit trivialModel true 100 rfl (by norm_num) 5).1⟩

/-- Claim C2 (refuted — the code diverges from it): the game loop does not
terminate for every behaviour of the engine and the execution strategies.
Under an execution stub that always reports failure (board not game over at
the start, positive move ceiling) the run is still `running` after every
number of iterations, with `moves_played = 0`: neither the move ceiling nor
the failure ceiling is ever reached, because the failure counter is reset at
the top of every iteration. -/
theorem play_game_loop_nonterminating (Pos : Type) (M : BoardModel Pos) (lm : Bool)
    (mm : Nat) (h0 : M.is_game_over M.init = false) (hmm : 0 < mm) (n : Nat) :
    (play_game_loop_run M lm mm alwaysFailEnv n).status = LoopStatus.running
    ∧ (play_game_loop_run M lm mm alwaysFailEnv n).moves_played = 0 := by
  rw [play_game_loop_run_alwaysFail M lm mm h0 hmm n]
  exact ⟨rfl, rfl⟩

/-- Witness for `play_game_loop_nonterminating` at the minimal board model,
`max_moves = 100` and 7 iterations. -/
theorem play_game_loop_nonterminating_witness :
    trivialModel.is_game_over trivialModel.init = false
    ∧ 0 < 100
    ∧ (play_game_loop_run trivialModel true 100 alwaysFailEnv 7).status = LoopStatus.running :=
  ⟨rfl, by norm_num,
   (play_game_loop_nonterminating Unit trivialModel true 100 rfl (by norm_num) 7).1⟩

/-- Claim C3: whenever the engine only ever returns moves that are legal for
the position it was asked about (hypothesis `h_eng`), every position the
loop's board passes through is legal — reachable from the starting position
by legal pushes — and, step by step, the board either stays unchanged or is
mutated by pushing exactly the move that `calculate_best_move` produced for
that very board: moves are only ever applied to the position they were
generated from. -/
theorem loop_positions_stay_legal (Pos : Type) (M : BoardModel Pos)
    (L : Pos → Move → Prop) (lm : Bool) (mm : Nat) (env : Nat → EnvStep)
    (h_eng : ∀ n m, (env n).engineReply = EngineReply.move m
        → L ((play_game_loop_run M lm mm env n).board) m) (n : Nat) :
    LegalPos M L ((play_game_loop_run M lm mm env n).board)
    ∧ ((play_game_loop_run M lm mm env (n + 1)).board
          = (play_game_loop_run M lm mm env n).board
      ∨ ∃ m, calculate_best_move M ((play_game_loop_run M lm mm env n).board)
              ((env n).engineReply) = some m
          ∧ (play_game_loop_run M lm mm env (n + 1)).board
              = M.push ((play_game_loop_run M lm mm env n).board) m) := by
  have hstep : ∀ k, ((play_game_loop_run M lm mm env (k + 1)).board
          = (play_game_loop_run M lm mm env k).board
      ∨ ∃ m, calculate_best_move M ((play_game_loop_run M lm mm env k).board)
              ((env k).engineReply) = some m
          ∧ (play_game_loop_run M lm mm env (k + 1)).board
              = M.push ((play_game_loop_run M lm mm env k).board) m) := by
    intro k
    rcases play_game_loop_step_board_cases M lm mm (env k)
        (play_game_loop_run M lm mm env k) with ⟨hb, _⟩ | ⟨m, hc, _, hb, _⟩
    · exact Or.inl hb
    · exact Or.inr ⟨m, hc, hb⟩
  have hleg : ∀ k, LegalPos M L ((play_game_loop_run M lm mm env k).board) := by
    intro k
    induction k with
    | zero => exact LegalPos.start
    | succ j ihj =>
      rcases hstep j with hb | ⟨m, hc, hb⟩
      · rw [hb]; exact ihj
      · rw [hb]
        exact LegalPos.step _ _ ihj
          (h_eng j m (calculate_best_move_eq_some M _ _ m hc))
  exact ⟨hleg n, hstep n⟩

/-- Witness for `loop_positions_stay_legal`: the history board model with a
legal-move relation that holds exactly for e2e4, under an engine that always
proposes e2e4, after 2 iterations. -/
theorem loop_positions_stay_legal_witness :
    (∀ n m, (alwaysFailEnv n).engineReply = EngineReply.move m
        → (fun (_ : List Move) (mv : Move) => mv = e2e4)
            ((play_game_loop_run histModel true 100 alwaysFailEnv n).board) m)
    ∧ LegalPos histModel (fun _ mv => mv = e2e4)
        ((play_game_loop_run histModel true 100 alwaysFailEnv 2).board) := by
  have h : ∀ n m, (alwaysFailEnv n).engineReply = EngineReply.move m
      → (fun (_ : List Move) (mv : Move) => mv = e2e4)
          ((play_game_loop_run histModel true 100 alwaysFailEnv n).board) m := by
    intro n m hm
    simp only [alwaysFailEnv, EngineReply.move.injEq] at hm
    exact hm.symm
  exact ⟨h, (loop_positions_stay_legal (List Move) histModel
    (fun _ mv => mv = e2e4) true 100 alwaysFailEnv h 2).1⟩

/-- Claim C5: if move execution reports failure for a turn, the board model
is left unchanged — no move is pushed — and in general one loop iteration
either leaves the board untouched or pushes exactly the calculated move
whose execution reported success: the push at line 725 is the sole mutation
point of the position, reached only on reported success. -/
theorem board_pushed_only_on_reported_success {Pos : Type} (M : BoardModel Pos)
    (lm : Bool) (mm : Nat) (e : EnvStep) (s : LoopState Pos) :
    (∀ m, calculate_best_move M s.board e.engineReply = some m
        → (execute_move e.execResults lm e.now m).success = false
        → (play_game_loop_step M lm mm e s).board = s.board
          ∧ (play_game_loop_step M lm mm e s).applied = s.applied)
    ∧ (((play_game_loop_step M lm mm e s).board = s.board
        ∧ (play_game_loop_step M lm mm e s).applied = s.applied)
      ∨ ∃ m, calculate_best_move M s.board e.engineReply = some m
          ∧ (execute_move e.execResults lm e.now m).success = true
          ∧ (play_game_loop_step M lm mm e s).board = M.push s.board m
          ∧ (play_game_loop_step M lm mm e s).applied = s.applied ++ [m]) := by
  have hcases := play_game_loop_step_board_cases M lm mm e s
  refine ⟨?_, hcases⟩
  intro m hc hf
  rcases hcases with ⟨hb, ha⟩ | ⟨m2, hc2, hs2, _, _⟩
  · exact ⟨hb, ha⟩
  · rw [hc] at hc2
    obtain rfl : m = m2 := by injection hc2
    rw [hs2] at hf
    cases hf

/-- Witness for `board_pushed_only_on_reported_success`: a concrete failing
turn on the history board model leaves the board at the starting position. -/
theorem board_pushed_only_on_reported_success_witness :
    calculate_best_move histModel (init_loop_state histModel).board
        (EngineReply.move e2e4) = some e2e4
    ∧ (execute_move (fun _ => MethodOutcome.failure) true 0 e2e4).success = false
    ∧ (play_game_loop_step histModel true 100
        ⟨EngineReply.move e2e4, fun _ => MethodOutcome.failure, 0⟩
        (init_loop_state histModel)).board = (init_loop_state histModel).board :=
  ⟨rfl, rfl,
   ((board_pushed_only_on_reported_success histModel true 100
      ⟨EngineReply.move e2e4, fun _ => MethodOutcome.failure, 0⟩
      (init_loop_state histModel)).1 e2e4 rfl rfl).1⟩

/-- Claim C6, amended (with move logging enabled, the default): along every
run, the move log lists exactly the successfully applied moves, once each
and in order (their `move` fields are the applied moves' UCI strings), every
record's method is one of the three fixed strategy names, and as soon as a
move was applied the accumulated log is persisted verbatim by
`save_move_log`. -/
theorem move_log_matches_applied_moves {Pos : Type} (M : BoardModel Pos)
    (mm : Nat) (env : Nat → EnvStep) (n : Nat) :
    ((play_game_loop_run M true mm env n).move_log.map MoveLogEntry.move
        = (play_game_loop_run M true mm env n).applied.map uci)
    ∧ (∀ en ∈ (play_game_loop_run M true mm env n).move_log,
        en.method = "drag_drop" ∨ en.method = "javascript" ∨ en.method = "keyboard")
    ∧ ((play_game_loop_run M true mm env n).applied ≠ []
        → save_move_log ((play_game_loop_run M true mm env n).move_log)
            = some ((play_game_loop_run M true mm env n).move_log)) := by
  induction n with
  | zero =>
    refine ⟨rfl, ?_, ?_⟩
    · intro en hen
      simp [play_game_loop_run, init_loop_state] at hen
    · intro hne
      simp [play_game_loop_run, init_loop_state] at hne
  | succ k ih =>
    obtain ⟨ih1, ih2, _⟩ := ih
    have hlog := play_game_loop_step_log_cases M true mm (env k)
      (play_game_loop_run M true mm env k)
    have hrun : play_game_loop_run M true mm env (k + 1)
        = play_game_loop_step M true mm (env k) (play_game_loop_run M true mm env k) := rfl
    rcases hlog with ⟨hl, ha⟩ | ⟨m, meth, _, ha, hl⟩
    · rw [hrun, hl, ha]
      refine ⟨ih1, ih2, ?_⟩
      intro hne
      have hlogne : (play_game_loop_run M true mm env k).move_log ≠ [] := by
        intro hemp
        have hmap := ih1
        rw [hemp] at hmap
        have : (play_game_loop_run M true mm env k).applied.map uci = [] := hmap.symm
        simp at this
        exact hne this
      simp [save_move_log, hlogne]
    · rw [hrun, hl, ha]
      simp only [if_true]
      refine ⟨?_, ?_, ?_⟩
      · simp only [List.map_append, List.map_cons, List.map_nil, ih1, move_entry]
      · intro en hen
        rcases List.mem_append.mp hen with hmem | hmem
        · exact ih2 en hmem
        · have hentry : en = move_entry (env k).now m (methodName meth) := by
            simpa using hmem
          rw [hentry]
          simpa [move_entry] using methodName_cases meth
      · intro _
        simp [save_move_log]

/-- Witness for `move_log_matches_applied_moves`: after one successful turn
on the history board model the applied list is non-empty and the log is
persisted. -/
theorem move_log_matches_applied_moves_witness :
    (play_game_loop_run histModel true 100 allSuccessEnv 1).applied ≠ []
    ∧ save_move_log ((play_game_loop_run histModel true 100 allSuccessEnv 1).move_log)
        = some ((play_game_loop_run histModel true 100 allSuccessEnv 1).move_log) := by
  have hap : (play_game_loop_run histModel true 100 allSuccessEnv 1).applied = [e2e4] := rfl
  have hne : (play_game_loop_run histModel true 100 allSuccessEnv 1).applied ≠ [] := by
    rw [hap]; simp
  exact ⟨hne, (move_log_matches_applied_moves histModel 100 allSuccessEnv 1).2.2 hne⟩

/-- Claim C6, counterexample to the unconditional claim: when the bot is
constructed with `log_moves=False`, a successfully applied move (here e2e4,
applied on the first turn) produces no log record at all — the append at
line 648 is guarded by `if self.log_moves:` — and nothing is persisted, so
the applied move does not appear in the persisted move log. -/
theorem move_log_skipped_when_logging_disabled :
    (play_game_loop_run histModel false 100 allSuccessEnv 1).applied = [e2e4]
    ∧ (play_game_loop_run histModel false 100 allSuccessEnv 1).move_log = []
    ∧ save_move_log ((play_game_loop_run histModel false 100 allSuccessEnv 1).move_log)
        = none :=
  ⟨rfl, rfl, rfl⟩

/-- Claim C9: when the board model reports the position is game over, the
loop iteration transitions to the terminal state immediately, recording the
classification `current_board.result()`, and changes nothing else — in
particular `engine_calls` is unchanged: no further move is requested from
the engine for that position (`calculate_best_move` is not even reached,
and its own guard would skip the engine too). -/
theorem terminal_without_engine_request {Pos : Type} (M : BoardModel Pos)
    (lm : Bool) (mm : Nat) (e : EnvStep) (s : LoopState Pos)
    (h1 : s.status = LoopStatus.running) (h2 : s.moves_played < mm)
    (h3 : M.is_game_over s.board = true) :
    play_game_loop_step M lm mm e s
      = { s with status := LoopStatus.gameOver,
                 final_result := some (M.result s.board) } := by
  unfold play_game_loop_step
  simp [h1, h2, h3]

/-- Witness for `terminal_without_engine_request` at a board model whose
positions always report game over. -/
theorem terminal_without_engine_request_witness :
    (init_loop_state gameOverModel).status = LoopStatus.running
    ∧ (init_loop_state gameOverModel).moves_played < 100
    ∧ gameOverModel.is_game_over (init_loop_state gameOverModel).board = true
    ∧ play_game_loop_step gameOverModel true 100
        ⟨EngineReply.noMove, fun _ => MethodOutcome.failure, 0⟩
        (init_loop_state gameOverModel)
      = { init_loop_state gameOverModel with
            status := LoopStatus.gameOver,
            final_result := some (gameOverModel.result (init_loop_state gameOverModel).board) } :=
  ⟨rfl, by norm_num [init_loop_state], rfl,
   terminal_without_engine_request gameOverModel true 100
     ⟨EngineReply.noMove, fun _ => MethodOutcome.failure, 0⟩
     (init_loop_state gameOverModel) rfl (by norm_num [init_loop_state]) rfl⟩

end ChessBot
